import Mathlib

/-!
Verification development for the flow-control module of the ACME cross
assembler (src/trunk/src/flow.c).  The directives modelled here are the
loop directives (PO_do, PO_for), the condition evaluator
(check_condition), the conditional-assembly directives (PO_if,
ifdef_ifndef) and the file-inclusion directive (PO_source).  Pure
decision logic is translated directly; interactions with the external
lexer, expression evaluator and symbol table are represented by explicit
parameters (booleans for success of external reads, functions from an
abstract state for expression values) and by event traces recording the
externally visible actions (symbol writes, body executions, block
parses/skips, raised errors).
-/

set_option linter.unusedVariables false

/-- Classification of raised errors: Throw_error is recoverable and
statement-scoped, Throw_serious_error aborts the enclosing nesting
context (global.c collaborators, as used throughout flow.c). -/
inductive err_class where
  | recoverable
  | serious
deriving DecidableEq

/-- An error raised through one of the Throw channels. -/
structure flow_error where
  cls : err_class
  msg : String
deriving DecidableEq

/-- Exception text used with Throw_error / Throw_serious_error
(declared in global.c, which is outside src/; the exact wording is
irrelevant, only identity matters). -/
def exception_syntax : String := "syntax error"

/-- Exception text for a missing opening brace. -/
def exception_no_left_brace : String := "no left brace"

/-- Exception text for a missing closing brace. -/
def exception_no_right_brace : String := "no right brace"

/-- Exception text for an unopenable include file. -/
def exception_cannot_open_input_file : String := "cannot open input file"

/-- Modelled from the spec: the end-of-statement sentinel byte (CHAR_EOS
from config.h, which is outside src/).  flow.c line 113 tests the
last-read byte for truthiness after evaluating a condition expression,
so the sentinel is the zero byte. -/
def CHAR_EOS : Int := 0

/-- A stored loop-condition expression, as captured by store_condition:
evaluating it with ALU_defined_int yields an integer that may depend on
the current assembly state (of abstract type sigma), and the stored text
either is or is not completely consumed by the evaluator (trailing
garbage left means GotByte is nonzero afterwards). -/
structure cond_expr (σ : Type) where
  value : σ → Int
  trailing : Bool

/-- The loop_condition struct of flow.c lines 29-33:  original line
number, invert flag (0 for WHILE, 1 for UNTIL, per the condkeys table
lines 40-44), and an optional stored expression (body = NULL when no
condition was given). -/
structure loop_condition (σ : Type) where
  line : Int
  invert : Bool
  body : Option (cond_expr σ)

/-- The check_condition function of flow.c lines 100-116: a missing body
is always true; otherwise the stored expression is evaluated, leftover
input raises a serious syntax error (line 113-114), and the result is
the C expression  condition->invert ? !expression : !!expression. -/
def check_condition {σ : Type} (condition : loop_condition σ) (s : σ) :
    Except flow_error Bool :=
  match condition.body with
  | none => Except.ok true
  | some b =>
      let expression := b.value s
      if b.trailing then
        Except.error ⟨err_class.serious, exception_syntax⟩
      else
        Except.ok (if condition.invert then decide (expression = 0)
                   else decide (expression ≠ 0))

/-- Outcome of running the do-while loop of PO_do: either the fuel bound
was hit, a condition evaluation raised, or the loop finished in a final
state with a count of body executions and of tail-condition
evaluations. -/
inductive do_outcome (σ : Type) where
  | fuel_out
  | err (e : flow_error)
  | done (s : σ) (body_runs : Nat) (tail_evals : Nat)

/-- The loop of PO_do, flow.c lines 157-165:
do  go_on = check_condition(head); if (go_on) parse body,
go_on = check_condition(tail)  while (go_on).  The body is an abstract
state transformer; runs and tails count body executions and
tail-condition evaluations. -/
def do_loop {σ : Type} (c1 c2 : loop_condition σ) (body : σ → σ) :
    Nat → σ → Nat → Nat → do_outcome σ
  | 0, _, _, _ => do_outcome.fuel_out
  | fuel+1, s, runs, tails =>
      match check_condition c1 s with
      | Except.error e => do_outcome.err e
      | Except.ok go_on =>
          if go_on then
            let s2 := body s
            match check_condition c2 s2 with
            | Except.error e => do_outcome.err e
            | Except.ok go_on2 =>
                if go_on2 then do_loop c1 c2 body fuel s2 (runs+1) (tails+1)
                else do_outcome.done s2 (runs+1) (tails+1)
          else do_outcome.done s runs tails

/-- A value written into the loop symbol by symbol_set_value: integer
value plus the MVALUE_DEFINED and MVALUE_EXISTS flags set at flow.c line
243 (flag constants live in symbol.h outside src/, modelled as two
booleans). -/
structure sym_value where
  intval : Int
  defined_flag : Bool
  exists_flag : Bool
deriving DecidableEq

/-- Externally visible event of a !for execution: a write to the bound
symbol, or one execution of the loop body (parse_ram_block). -/
inductive for_event where
  | sym_write (v : sym_value)
  | body_run
deriving DecidableEq

/-- A symbol write performed by PO_for: flow.c lines 243-245 and
251-252 / 260-261 always store the current counter with flags
MVALUE_DEFINED and MVALUE_EXISTS. -/
def write_counter (i : Int) : for_event :=
  for_event.sym_write ⟨i, true, true⟩

/-- The new-syntax loop of PO_for, flow.c lines 258-262:
do  parse body; counter += increment; write symbol
while (counter != counter_last + counter_increment).
Fuel-bounded; none means the fuel ran out. -/
def new_for_loop (counter_last counter_increment : Int) :
    Nat → Int → Option (List for_event)
  | 0, _ => none
  | fuel+1, counter =>
      let counter2 := counter + counter_increment
      if counter2 = counter_last + counter_increment then
        some [for_event.body_run, write_counter counter2]
      else
        (new_for_loop counter_last counter_increment fuel counter2).map
          (fun rest => for_event.body_run :: write_counter counter2 :: rest)

/-- The old-syntax loop of PO_for, flow.c lines 250-254:
do  counter += increment; write symbol; parse body
while (counter < counter_last).  (counter_increment is 1 on this path,
set at line 225.)  Fuel-bounded; none means the fuel ran out. -/
def old_for_loop (counter_last counter_increment : Int) :
    Nat → Int → Option (List for_event)
  | 0, _ => none
  | fuel+1, counter =>
      let counter2 := counter + counter_increment
      if counter2 < counter_last then
        (old_for_loop counter_last counter_increment fuel counter2).map
          (fun rest => write_counter counter2 :: for_event.body_run :: rest)
      else
        some [write_counter counter2, for_event.body_run]

/-- Outcome of PO_for: skip the statement remainder (with an optional
recoverable error first), abort with a serious error, run out of fuel,
or finish with the trace of symbol writes and body runs. -/
inductive for_outcome where
  | skip_remainder (err : Option String)
  | serious_err (msg : String)
  | fuel_out
  | ok (events : List for_event)
deriving DecidableEq

/-- The common tail of PO_for, flow.c lines 242-263: write the initial
counter value into the symbol, then run the old or the new loop (the old
loop is skipped entirely when counter_last is zero, line 249). -/
def run_for_algo (old_algo : Bool)
    (counter_first counter_last counter_increment : Int) (fuel : Nat) :
    for_outcome :=
  let init := [write_counter counter_first]
  if old_algo then
    if counter_last = 0 then for_outcome.ok init
    else
      match old_for_loop counter_last counter_increment fuel counter_first with
      | none => for_outcome.fuel_out
      | some evs => for_outcome.ok (init ++ evs)
  else
    match new_for_loop counter_last counter_increment fuel counter_first with
    | none => for_outcome.fuel_out
    | some evs => for_outcome.ok (init ++ evs)

/-- The PO_for directive, flow.c lines 184-271.  keyword_ok models
Input_read_zone_and_keyword succeeding (line 200), comma_ok models
Input_accept_comma succeeding (line 205), second_arg is the optional
second ALU_defined_int argument (present exactly when the second comma
is accepted, line 210), sob models GotByte being the opening brace at
line 227.  Argument handling: with a second argument the new algorithm
runs from first_arg to counter_last with increment -1 when
counter_last < first_arg and 1 otherwise (line 216); without it a
negative first_arg is a serious error (lines 221-222) and the old
algorithm runs from 0 to first_arg with increment 1 (lines 223-225). -/
def PO_for_run (keyword_ok comma_ok : Bool) (first_arg : Int)
    (second_arg : Option Int) (sob : Bool) (fuel : Nat) : for_outcome :=
  if keyword_ok = false then for_outcome.skip_remainder none
  else if comma_ok = false then
    for_outcome.skip_remainder (some exception_syntax)
  else
    match second_arg with
    | some counter_last =>
        if sob = false then for_outcome.serious_err exception_no_left_brace
        else run_for_algo false first_arg counter_last
          (if counter_last < first_arg then -1 else 1) fuel
    | none =>
        if first_arg < 0 then for_outcome.serious_err "Loop count is negative."
        else if sob = false then
          for_outcome.serious_err exception_no_left_brace
        else run_for_algo true 0 first_arg 1 fuel

/-- Value of the bound symbol observed at each body execution: walk the
event trace keeping the last written value, and emit the current value
at every body_run event. -/
def body_sym_values : List for_event → Option Int → List (Option Int)
  | [], _ => []
  | for_event.sym_write v :: rest, _ => body_sym_values rest (some v.intval)
  | for_event.body_run :: rest, cur => cur :: body_sym_values rest cur

/-- Closed form of the event list produced by one full run of the
new-syntax loop with n+1 body executions starting at counter value
counter (used to state the characterisation lemmas). -/
def loopEv (counter_increment : Int) : Nat → Int → List for_event
  | 0, counter =>
      [for_event.body_run, write_counter (counter + counter_increment)]
  | n+1, counter =>
      for_event.body_run :: write_counter (counter + counter_increment) ::
        loopEv counter_increment n (counter + counter_increment)

/-- Closed form of the event list produced by one full run of the
old-syntax loop with r body executions starting at counter value c. -/
def oldEv : Nat → Int → List for_event
  | 0, _ => []
  | r+1, c => write_counter (c + 1) :: for_event.body_run :: oldEv r (c + 1)

/-- Externally visible event of conditional-assembly directives: a block
parsed as statements (Parse_until_eob_or_eof), a block skipped
(Input_skip_or_store_block with FALSE), a recoverable or serious error
raised, or Input_ensure_EOS invoked. -/
inductive block_event where
  | parsed
  | skipped
  | threw (msg : String)
  | threw_serious (msg : String)
  | ensured_eos
deriving DecidableEq

/-- What follows the first block of an if-directive, after
NEXTANDSKIPSPACE at flow.c line 303: the end-of-statement sentinel, a
failed keyword read, or a keyword word together with whether an opening
brace follows it (after skipped space). -/
inductive after_block_input where
  | eos
  | bad_keyword
  | keyword (word : String) (sob_follows : Bool)
deriving DecidableEq

/-- Return protocol from a directive handler to the statement
dispatcher (enum eos from global.h, outside src/; the four values are
those used in flow.c). -/
inductive eos_kind where
  | skip_remainder
  | parse_remainder
  | ensure_eos
  | at_eos_anyway
deriving DecidableEq

/-- The skip_or_parse_block helper, flow.c lines 278-290: when not
parsing, the block is skipped; when parsing, Parse_until_eob_or_eof runs
and a missing closing brace is a serious error (lines 287-288).  The
returned boolean is true when control returns normally (the C function
always returns 0; false here marks the aborting serious-error path). -/
def skip_or_parse_block (parse terminated : Bool) :
    List block_event × Bool :=
  if parse = false then ([block_event.skipped], true)
  else if terminated then ([block_event.parsed], true)
  else ([block_event.parsed, block_event.threw_serious exception_no_right_brace],
        false)

/-- The parse_block_else_block helper, flow.c lines 294-320: handle the
first block, return at end of statement, otherwise read a keyword; a
word other than else is a recoverable syntax error, else followed by
anything but an opening brace is a serious error, otherwise the second
block is handled with the opposite parse flag; finally
Input_ensure_EOS runs (line 319) on every non-aborting path that read a
keyword. -/
def parse_block_else_block (parse_first first_term : Bool)
    (after : after_block_input) (second_term : Bool) :
    List block_event × Bool :=
  match skip_or_parse_block parse_first first_term with
  | (ev1, false) => (ev1, false)
  | (ev1, true) =>
      match after with
      | after_block_input.eos => (ev1, true)
      | after_block_input.bad_keyword => (ev1 ++ [block_event.ensured_eos], true)
      | after_block_input.keyword w sob =>
          if w = "else" then
            if sob then
              match skip_or_parse_block (!parse_first) second_term with
              | (ev2, true) =>
                  (ev1 ++ ev2 ++ [block_event.ensured_eos], true)
              | (ev2, false) => (ev1 ++ ev2, false)
            else
              (ev1 ++ [block_event.threw_serious exception_no_left_brace], false)
          else
            (ev1 ++ [block_event.threw exception_syntax,
                     block_event.ensured_eos], true)

/-- The PO_if directive, flow.c lines 324-333: evaluate the condition
(given here as the integer cond), require an opening brace (serious
error otherwise), then parse_block_else_block with parse flag !!cond,
returning ENSURE_EOS.  The second component is none when a serious
error aborted the handler. -/
def PO_if (cond : Int) (sob first_term : Bool) (after : after_block_input)
    (second_term : Bool) : List block_event × Option eos_kind :=
  if sob = false then
    ([block_event.threw_serious exception_no_left_brace], none)
  else
    match parse_block_else_block (decide (cond ≠ 0)) first_term after second_term with
    | (ev, true) => (ev, some eos_kind.ensure_eos)
    | (ev, false) => (ev, none)

/-- The ifdef_ifndef helper, flow.c lines 337-365: keyword_ok models
Input_read_zone_and_keyword succeeding (line 344), node_found models the
symbol being present in the symbol forest, flag_defined models its
MVALUE_DEFINED flag; the defined boolean is their conjunction (lines
347-355), inverted for !ifndef (lines 358-359).  Without a following
opening brace the handler returns PARSE_REMAINDER or SKIP_REMAINDER
according to the defined boolean (lines 360-361); with one it behaves
like PO_if (lines 363-364).  (The first-pass usage counting of lines
350-352 is a diagnostic side effect not modelled here.) -/
def ifdef_ifndef (invert keyword_ok node_found flag_defined sob first_term : Bool)
    (after : after_block_input) (second_term : Bool) :
    List block_event × Option eos_kind :=
  if keyword_ok = false then ([], some eos_kind.skip_remainder)
  else
    let defined0 := node_found && flag_defined
    let defined1 := if invert then !defined0 else defined0
    if sob = false then
      ([], some (if defined1 then eos_kind.parse_remainder
                 else eos_kind.skip_remainder))
    else
      match parse_block_else_block defined1 first_term after second_term with
      | (ev, true) => (ev, some eos_kind.ensure_eos)
      | (ev, false) => (ev, none)

/-- Number of blocks parsed as statements in an event trace. -/
def parsed_count : List block_event → Nat
  | [] => 0
  | block_event.parsed :: rest => parsed_count rest + 1
  | _ :: rest => parsed_count rest

/-- Number of errors (recoverable or serious) raised in an event
trace. -/
def error_count : List block_event → Nat
  | [] => 0
  | block_event.threw _ :: rest => error_count rest + 1
  | block_event.threw_serious _ :: rest => error_count rest + 1
  | _ :: rest => error_count rest

/-- An input cursor frame (struct input from input.h, outside src/;
only the fields flow.c manipulates directly are modelled): current line
number and whether the byte source is RAM. -/
structure input_frame where
  line_number : Int
  source_is_ram : Bool
deriving DecidableEq

/-- The parser state visible to flow.c around a frame switch: the
active input frame (Input_now) and the last-consumed byte (GotByte). -/
structure parser_state where
  input_now : input_frame
  got_byte : Int
deriving DecidableEq

/-- The frame protocol of PO_do, flow.c lines 150-177: copy the current
frame, mark it RAM-backed, remember the outer frame, activate the copy,
run the whole loop (an arbitrary transformation of the active state),
then restore the outer frame and set GotByte to the end-of-statement
sentinel it is known to have been (line 172), returning
AT_EOS_ANYWAY. -/
def PO_do_frames (st : parser_state) (inner : parser_state → parser_state) :
    parser_state × eos_kind :=
  let outer_input := st.input_now
  let loop_input : input_frame := { st.input_now with source_is_ram := true }
  let after := inner { st with input_now := loop_input }
  ({ after with input_now := outer_input, got_byte := CHAR_EOS },
   eos_kind.at_eos_anyway)

/-- The frame protocol of PO_for, flow.c lines 235-241 and 266-269:
copy the current frame, mark it RAM-backed, remember the outer frame,
activate the copy, run the whole counting loop (an arbitrary
transformation of the active state), then restore the outer frame and
call GetByte.  The caller's lost GotByte (known to be the closing
brace, line 268) is NOT restored: GetByte fetches the following byte
from the restored outer input (given here as the parameter next_byte,
since the byte source lives in input.c outside src/), and the handler
returns ENSURE_EOS. -/
def PO_for_frames (st : parser_state) (inner : parser_state → parser_state)
    (next_byte : Int) : parser_state × eos_kind :=
  let outer_input := st.input_now
  let loop_input : input_frame := { st.input_now with source_is_ram := true }
  let after := inner { st with input_now := loop_input }
  ({ after with input_now := outer_input, got_byte := next_byte },
   eos_kind.ensure_eos)

/-- State relevant to PO_source: the parser state plus the remaining
inclusion-depth budget (source_recursions_left, a global declared
outside src/). -/
structure source_state where
  ps : parser_state
  source_recursions_left : Int
deriving DecidableEq

/-- Outcome of PO_source: the fatal too-deeply-nested abort, or normal
completion with the final state, the returned eos value and an optional
recoverable error. -/
inductive source_outcome where
  | fatal (msg : String)
  | done (st : source_state) (kind : eos_kind) (err : Option String)
deriving DecidableEq

/-- The PO_source directive, flow.c lines 420-452: decrement the
recursion budget, abort fatally when it goes negative (lines 429-430);
a failed filename read returns SKIP_REMAINDER without restoring the
budget (lines 432-433); on a successful open, the outer frame and
GotByte are saved (lines 440-441), the file is parsed with a fresh
frame active (an arbitrary transformation of the active state), the
outer frame and the saved byte are restored (lines 444-445) and the
budget is restored (line 450); an unopenable file raises a recoverable
error and also restores the budget (lines 446-450). -/
def PO_source (st : source_state) (filename_ok open_ok : Bool)
    (inner : parser_state → parser_state) : source_outcome :=
  let r := st.source_recursions_left - 1
  if r < 0 then source_outcome.fatal "Too deeply nested. Recursive !source?"
  else if filename_ok = false then
    source_outcome.done { st with source_recursions_left := r }
      eos_kind.skip_remainder none
  else if open_ok then
    let outer_input := st.ps.input_now
    let local_gotbyte := st.ps.got_byte
    let after := inner { input_now := ⟨0, false⟩, got_byte := st.ps.got_byte }
    source_outcome.done
      { ps := { after with input_now := outer_input, got_byte := local_gotbyte },
        source_recursions_left := r + 1 }
      eos_kind.ensure_eos none
  else
    source_outcome.done { st with source_recursions_left := r + 1 }
      eos_kind.ensure_eos (some exception_cannot_open_input_file)

/-- The remaining inclusion budget after a PO_source outcome (none on
the fatal path). -/
def outcome_recursions : source_outcome → Option Int
  | source_outcome.fatal _ => none
  | source_outcome.done st _ _ => some st.source_recursions_left

/-! ## Theorems -/

/-- C4: a loop condition with no stored body evaluates to true
regardless of its invert flag; a stored until condition (invert true)
evaluates to the negation of the expression value being nonzero; a
stored while condition (invert false) evaluates to the expression value
being nonzero (assuming the stored text is fully consumed). -/
theorem C4_check_condition {σ : Type} (c : loop_condition σ) (s : σ) :
    (c.body = none → check_condition c s = Except.ok true)
    ∧ (∀ b : cond_expr σ, c.body = some b → b.trailing = false →
        c.invert = true →
        check_condition c s = Except.ok (! decide (b.value s ≠ 0)))
    ∧ (∀ b : cond_expr σ, c.body = some b → b.trailing = false →
        c.invert = false →
        check_condition c s = Except.ok (decide (b.value s ≠ 0))) := by
  refine ⟨fun h => by simp [check_condition, h], ?_, ?_⟩
  · intro b hb ht hi
    simp [check_condition, hb, ht, hi, decide_not]
  · intro b hb ht hi
    simp [check_condition, hb, ht, hi]

/-- Witness for C4 at concrete conditions: an absent body is true, an
until condition over a nonzero expression is false, a while condition
over a nonzero expression is true. -/
theorem C4_witness :
    check_condition (⟨1, false, none⟩ : loop_condition Unit) () = Except.ok true
    ∧ check_condition (⟨1, true, some ⟨fun _ => 2, false⟩⟩ : loop_condition Unit) ()
        = Except.ok false
    ∧ check_condition (⟨1, false, some ⟨fun _ => 2, false⟩⟩ : loop_condition Unit) ()
        = Except.ok true := by
  refine ⟨(C4_check_condition ⟨1, false, none⟩ ()).1 rfl, ?_, ?_⟩
  · have h := (C4_check_condition
      (⟨1, true, some ⟨fun _ => 2, false⟩⟩ : loop_condition Unit) ()).2.1
      ⟨fun _ => 2, false⟩ rfl rfl rfl
    simpa using h
  · have h := (C4_check_condition
      (⟨1, false, some ⟨fun _ => 2, false⟩⟩ : loop_condition Unit) ()).2.2
      ⟨fun _ => 2, false⟩ rfl rfl rfl
    simpa using h

/-- C7 counterexample: a stored condition whose text is not fully
consumed by the evaluator raises a serious (context-aborting) error,
not a recoverable statement-scoped one, refuting the claim that the
trailing-garbage error is recoverable. -/
theorem C7_counterexample :
    check_condition
        (⟨7, false, some ⟨fun _ => 1, true⟩⟩ : loop_condition Unit) ()
      = Except.error ⟨err_class.serious, exception_syntax⟩
    ∧ err_class.serious ≠ err_class.recoverable :=
  ⟨rfl, by decide⟩

/-- C7 amended: for every loop-condition evaluation in which input
remains unconsumed after the expression, the error raised is the
serious syntax error, which aborts the enclosing nesting context
(flow.c lines 113-114 call Throw_serious_error). -/
theorem C7_trailing_serious {σ : Type} (c : loop_condition σ) (s : σ)
    (b : cond_expr σ) (hb : c.body = some b) (ht : b.trailing = true) :
    check_condition c s = Except.error ⟨err_class.serious, exception_syntax⟩ := by
  simp [check_condition, hb, ht]

/-- Witness for the amended C7 at a concrete condition. -/
theorem C7_witness :
    check_condition
        (⟨3, true, some ⟨fun _ => 5, true⟩⟩ : loop_condition Unit) ()
      = Except.error ⟨err_class.serious, exception_syntax⟩ :=
  C7_trailing_serious (⟨3, true, some ⟨fun _ => 5, true⟩⟩ : loop_condition Unit)
    () ⟨fun _ => 5, true⟩ rfl rfl

/-- C1: in the PO_do loop, a head condition that is false on the very
first check finishes the loop with zero body executions and zero
tail-condition evaluations, whatever the tail condition is; a head
condition that is true runs the body once, evaluates the tail condition
once, and the loop repeats exactly when that most recently evaluated
condition is true. -/
theorem C1_do_loop {σ : Type} (c1 : loop_condition σ) (body : σ → σ)
    (s : σ) (fuel : Nat) :
    (∀ c2 : loop_condition σ, check_condition c1 s = Except.ok false →
        do_loop c1 c2 body (fuel + 1) s 0 0 = do_outcome.done s 0 0)
    ∧ (∀ (c2 : loop_condition σ) (b : Bool),
        check_condition c1 s = Except.ok true →
        check_condition c2 (body s) = Except.ok b →
        do_loop c1 c2 body (fuel + 1) s 0 0 =
          if b then do_loop c1 c2 body fuel (body s) 1 1
          else do_outcome.done (body s) 1 1) := by
  constructor
  · intro c2 h
    simp [do_loop, h]
  · intro c2 b h1 h2
    cases b <;> simp [do_loop, h1, h2]

/-- Witness for C1 over state type Int with head condition while s,
tail condition until 1 and body adding one: from state 0 the head is
false, nothing runs; from state 1 the body runs once and the until-1
tail stops the loop after one tail evaluation. -/
theorem C1_witness :
    do_loop (⟨1, false, some ⟨fun s => s, false⟩⟩ : loop_condition Int)
        ⟨1, true, some ⟨fun _ => 1, false⟩⟩ (fun s => s + 1) 5 0 0 0
      = do_outcome.done 0 0 0
    ∧ do_loop (⟨1, false, some ⟨fun s => s, false⟩⟩ : loop_condition Int)
        ⟨1, true, some ⟨fun _ => 1, false⟩⟩ (fun s => s + 1) 5 1 0 0
      = do_outcome.done 2 1 1 := by
  constructor
  · exact (C1_do_loop (⟨1, false, some ⟨fun s => s, false⟩⟩ : loop_condition Int)
      (fun s => s + 1) 0 4).1 ⟨1, true, some ⟨fun _ => 1, false⟩⟩ rfl
  · have h := (C1_do_loop (⟨1, false, some ⟨fun s => s, false⟩⟩ : loop_condition Int)
      (fun s => s + 1) 1 4).2 ⟨1, true, some ⟨fun _ => 1, false⟩⟩ false rfl rfl
    simpa using h

/-- Characterisation of the new-syntax loop: with a unit increment (of
either sign), a last value reachable in n steps from the start and
enough fuel, the loop terminates and produces exactly the closed-form
event list loopEv. -/
theorem new_for_loop_eq (counter_increment : Int)
    (hinc : counter_increment = 1 ∨ counter_increment = -1) :
    ∀ (n : Nat) (c : Int) (fuel : Nat), n + 1 ≤ fuel →
      new_for_loop (c + counter_increment * n) counter_increment fuel c
        = some (loopEv counter_increment n c) := by
  intro n
  induction n with
  | zero =>
      intro c fuel hfuel
      match fuel, hfuel with
      | f+1, _ => simp [new_for_loop, loopEv]
  | succ m ih =>
      intro c fuel hfuel
      match fuel, hfuel with
      | f+1, hf =>
        have hne : ¬ (c + counter_increment
            = c + counter_increment * ((m : Int) + 1) + counter_increment) := by
          rcases hinc with h | h <;> subst h <;> intro heq <;> omega
        have harg : c + counter_increment * ((m + 1 : Nat) : Int)
            = (c + counter_increment) + counter_increment * (m : Int) := by
          push_cast
          ring
        rw [harg]
        rw [show ((m + 1 : Nat) + 1 ≤ f + 1) ↔ (m + 1 ≤ f) from by omega] at hf
        simp only [new_for_loop]
        rw [if_neg (by push_cast at harg ⊢; omega)]
        rw [ih (c + counter_increment) f hf]
        simp [loopEv]

/-- Symbol values seen by the body across a full new-syntax loop run:
starting from a last-written value equal to the current counter, the
n+1 body executions see the counter values c, c+inc, ..., c+inc*n. -/
theorem body_sym_loopEv (counter_increment : Int) :
    ∀ (n : Nat) (c : Int),
      body_sym_values (loopEv counter_increment n c) (some c)
        = (List.range (n + 1)).map
            (fun i : Nat => some (c + counter_increment * (i : Int))) := by
  intro n
  induction n with
  | zero =>
      intro c
      show body_sym_values (loopEv counter_increment 0 c) (some c)
        = [some (c + counter_increment * ((0 : Nat) : Int))]
      rw [loopEv]
      show [some c] = [some (c + counter_increment * ((0 : Nat) : Int))]
      norm_num
  | succ m ih =>
      intro c
      have lhs : body_sym_values (loopEv counter_increment (m + 1) c) (some c)
          = some c :: body_sym_values
              (loopEv counter_increment m (c + counter_increment))
              (some (c + counter_increment)) := by
        rw [loopEv]
        rfl
      rw [lhs, ih (c + counter_increment)]
      conv_rhs => rw [List.range_succ_eq_map, List.map_cons, List.map_map]
      congr 1
      · norm_num
      · apply List.map_congr_left
        intro i hi
        simp only [Function.comp_apply]
        congr 1
        push_cast
        ring

/-- C2: a new-form counting loop from first_arg to counter_last uses
increment -1 exactly when counter_last < first_arg and 1 otherwise,
executes its body at least once, and the bound symbol holds, at the
successive body executions, exactly the values from first_arg to
counter_last inclusive in ascending or descending order, i.e.
|counter_last - first_arg| + 1 iterations starting at first_arg. -/
theorem C2_new_for (first_arg counter_last : Int) (fuel : Nat)
    (hfuel : (counter_last - first_arg).natAbs + 1 ≤ fuel) :
    ∃ evs : List for_event,
      PO_for_run true true first_arg (some counter_last) true fuel
          = for_outcome.ok evs
      ∧ body_sym_values evs none =
          (List.range ((counter_last - first_arg).natAbs + 1)).map
            (fun i : Nat => some (first_arg +
              (if counter_last < first_arg then -1 else 1) * (i : Int)))
      ∧ (body_sym_values evs none).length
          = (counter_last - first_arg).natAbs + 1
      ∧ 1 ≤ (body_sym_values evs none).length := by
  set inc : Int := if counter_last < first_arg then -1 else 1 with hinc_def
  set n : Nat := (counter_last - first_arg).natAbs with hn_def
  have hinc : inc = 1 ∨ inc = -1 := by
    rw [hinc_def]
    by_cases h : counter_last < first_arg <;> simp [h]
  have hlast : counter_last = first_arg + inc * (n : Int) := by
    rw [hinc_def, hn_def]
    by_cases h : counter_last < first_arg
    · rw [if_pos h]
      omega
    · rw [if_neg h]
      omega
  have hloop : new_for_loop counter_last inc fuel first_arg
      = some (loopEv inc n first_arg) := by
    rw [hlast]
    exact new_for_loop_eq inc hinc n first_arg fuel hfuel
  have hbsv : body_sym_values
      (write_counter first_arg :: loopEv inc n first_arg) none
      = (List.range (n + 1)).map
          (fun i : Nat => some (first_arg + inc * (i : Int))) := by
    show body_sym_values (loopEv inc n first_arg) (some first_arg) = _
    exact body_sym_loopEv inc n first_arg
  refine ⟨write_counter first_arg :: loopEv inc n first_arg, ?_, hbsv, ?_, ?_⟩
  · simp [PO_for_run, run_for_algo, hloop]
  · rw [hbsv]
    simp
  · rw [hbsv]
    simp

/-- Witness for C2: the loop from 2 to 5 with fuel 10 produces a trace
whose body executions see the symbol values 2, 3, 4, 5. -/
theorem C2_witness :
    ∃ evs : List for_event,
      PO_for_run true true 2 (some 5) true 10 = for_outcome.ok evs
      ∧ body_sym_values evs none =
          (List.range (((5 : Int) - 2).natAbs + 1)).map
            (fun i : Nat => some ((2 : Int) +
              (if (5 : Int) < 2 then -1 else 1) * (i : Int)))
      ∧ (body_sym_values evs none).length = ((5 : Int) - 2).natAbs + 1
      ∧ 1 ≤ (body_sym_values evs none).length :=
  C2_new_for 2 5 10 (by norm_num)

/-- Characterisation of the old-syntax loop: started at counter c with
a last value r+1 above it and enough fuel, the loop terminates and
produces exactly the closed-form event list oldEv with r+1 body
executions. -/
theorem old_for_loop_eq :
    ∀ (r : Nat) (c : Int) (fuel : Nat), r + 1 ≤ fuel →
      old_for_loop (c + (r : Int) + 1) 1 fuel c = some (oldEv (r + 1) c) := by
  intro r
  induction r with
  | zero =>
      intro c fuel hfuel
      match fuel, hfuel with
      | f+1, _ =>
        simp only [old_for_loop, oldEv]
        rw [if_neg (by omega)]
  | succ m ih =>
      intro c fuel hfuel
      match fuel, hfuel with
      | f+1, hf =>
        simp only [old_for_loop]
        rw [if_pos (by push_cast; omega)]
        have harg : c + ((m + 1 : Nat) : Int) + 1 = (c + 1) + (m : Int) + 1 := by
          push_cast
          ring
        rw [harg, ih (c + 1) f (by omega)]
        simp [oldEv]

/-- Symbol values seen by the body across a full old-syntax loop run:
the r body executions see the values c+1, c+2, ..., c+r, each written
directly before the corresponding body execution. -/
theorem body_sym_oldEv :
    ∀ (r : Nat) (c : Int) (x : Option Int),
      body_sym_values (oldEv r c) x
        = (List.range r).map (fun i : Nat => some (c + 1 + (i : Int))) := by
  intro r
  induction r with
  | zero =>
      intro c x
      rfl
  | succ m ih =>
      intro c x
      have lhs : body_sym_values (oldEv (m + 1) c) x
          = some (c + 1) :: body_sym_values (oldEv m (c + 1)) (some (c + 1)) := by
        rw [oldEv]
        rfl
      rw [lhs, ih (c + 1), List.range_succ_eq_map]
      conv_rhs => rw [List.map_cons, List.map_map]
      congr 1
      · norm_num
      · apply List.map_congr_left
        intro i hi
        simp only [Function.comp_apply]
        congr 1
        push_cast
        ring

/-- C3: an old-form counting loop with a negative count aborts with the
serious loop-count error; with count zero the body never runs; with
count at least one the body runs exactly first_arg times and the bound
symbol holds, at the successive body executions, the values
1, 2, ..., first_arg in order. -/
theorem C3_old_for (first_arg : Int) (fuel : Nat) :
    (first_arg < 0 → PO_for_run true true first_arg none true fuel
        = for_outcome.serious_err "Loop count is negative.")
    ∧ (PO_for_run true true 0 none true fuel = for_outcome.ok [write_counter 0]
        ∧ body_sym_values [write_counter 0] none = [])
    ∧ (1 ≤ first_arg → first_arg.toNat ≤ fuel →
        ∃ evs : List for_event,
          PO_for_run true true first_arg none true fuel = for_outcome.ok evs
          ∧ body_sym_values evs none =
              (List.range first_arg.toNat).map
                (fun i : Nat => some (1 + (i : Int)))
          ∧ (body_sym_values evs none).length = first_arg.toNat) := by
  refine ⟨?_, ⟨?_, rfl⟩, ?_⟩
  · intro h
    simp [PO_for_run, h]
  · simp [PO_for_run, run_for_algo]
  · intro h1 hfuel
    obtain ⟨r, hr⟩ : ∃ r : Nat, first_arg.toNat = r + 1 :=
      ⟨first_arg.toNat - 1, by omega⟩
    have hlast : first_arg = 0 + (r : Int) + 1 := by omega
    have hloop : old_for_loop first_arg 1 fuel 0 = some (oldEv (r + 1) 0) := by
      rw [hlast]
      exact old_for_loop_eq r 0 fuel (by omega)
    have hbsv : body_sym_values (write_counter 0 :: oldEv (r + 1) 0) none
        = (List.range (r + 1)).map (fun i : Nat => some (1 + (i : Int))) := by
      show body_sym_values (oldEv (r + 1) 0) (some 0) = _
      rw [body_sym_oldEv (r + 1) 0 (some 0)]
      apply List.map_congr_left
      intro i hi
      norm_num
    refine ⟨write_counter 0 :: oldEv (r + 1) 0, ?_, ?_, ?_⟩
    · have hne : ¬ first_arg < 0 := by omega
      have hnz : ¬ first_arg = 0 := by omega
      simp [PO_for_run, run_for_algo, hne, hnz, hloop]
    · rw [hbsv, hr]
    · rw [hbsv, hr]
      simp

/-- Witness for C3: a negative count of -1 aborts, and a count of 3
with fuel 3 runs the body three times with symbol values 1, 2, 3. -/
theorem C3_witness :
    PO_for_run true true (-1) none true 5
        = for_outcome.serious_err "Loop count is negative."
    ∧ ∃ evs : List for_event,
        PO_for_run true true 3 none true 3 = for_outcome.ok evs
        ∧ body_sym_values evs none =
            (List.range (3 : Int).toNat).map
              (fun i : Nat => some (1 + (i : Int)))
        ∧ (body_sym_values evs none).length = (3 : Int).toNat :=
  ⟨(C3_old_for (-1) 5).1 (by norm_num),
   (C3_old_for 3 3).2.2 (by norm_num) (by norm_num)⟩

/-- Every successful run of the PO_for tail starts its event trace with
the write of the initial counter value into the bound symbol. -/
theorem run_for_algo_head (old_algo : Bool)
    (counter_first counter_last counter_increment : Int) (fuel : Nat)
    (evs : List for_event)
    (h : run_for_algo old_algo counter_first counter_last counter_increment fuel
        = for_outcome.ok evs) :
    evs.head? = some (write_counter counter_first) := by
  simp only [run_for_algo] at h
  split at h
  · split at h
    · cases h
      rfl
    · split at h
      · simp at h
      · cases h
        simp
  · split at h
    · simp at h
    · cases h
      simp

/-- C9: every successfully parsed !for directive writes the bound
symbol with the initial counter value (first_arg for the new form, 0
for the old form) before anything else; every such write carries the
defined and exists flags; and an old-form loop with count 0 performs
exactly that initial write and runs no body. -/
theorem C9_initial_write (keyword_ok comma_ok : Bool) (first_arg : Int)
    (second_arg : Option Int) (sob : Bool) (fuel : Nat) :
    (∀ evs : List for_event,
        PO_for_run keyword_ok comma_ok first_arg second_arg sob fuel
          = for_outcome.ok evs →
        evs.head? = some (write_counter
          (match second_arg with | some _ => first_arg | none => 0)))
    ∧ (∀ i : Int, write_counter i = for_event.sym_write ⟨i, true, true⟩)
    ∧ (∀ fuel2 : Nat, PO_for_run true true 0 none true fuel2
        = for_outcome.ok [write_counter 0]) := by
  refine ⟨?_, fun i => rfl, fun fuel2 => by simp [PO_for_run, run_for_algo]⟩
  intro evs h
  rcases second_arg with _ | counter_last
  · simp only [PO_for_run] at h
    split at h
    · simp at h
    · split at h
      · simp at h
      · split at h
        · simp at h
        · split at h
          · simp at h
          · exact run_for_algo_head true 0 first_arg 1 fuel evs h
  · simp only [PO_for_run] at h
    split at h
    · simp at h
    · split at h
      · simp at h
      · split at h
        · simp at h
        · exact run_for_algo_head false first_arg counter_last
            (if counter_last < first_arg then -1 else 1) fuel evs h

/-- Witness for C9: the old-form loop with count 0 and fuel 1 produces
exactly the initial write of 0, whose head event is that write. -/
theorem C9_witness :
    ([write_counter 0] : List for_event).head? = some (write_counter 0) :=
  (C9_initial_write true true 0 none true 1).1 [write_counter 0] (by decide)

/-- C5: with both blocks well-terminated, a nonzero condition parses
the first block and skips the else block, a zero condition skips the
first and parses the else block, exactly one block is parsed when an
else clause is present, and a missing else clause after a correctly
closed first block raises no error. -/
theorem C5_if (cond : Int) :
    (cond ≠ 0 → PO_if cond true true (after_block_input.keyword "else" true) true
        = ([block_event.parsed, block_event.skipped, block_event.ensured_eos],
           some eos_kind.ensure_eos))
    ∧ (cond = 0 → PO_if cond true true (after_block_input.keyword "else" true) true
        = ([block_event.skipped, block_event.parsed, block_event.ensured_eos],
           some eos_kind.ensure_eos))
    ∧ parsed_count
        (PO_if cond true true (after_block_input.keyword "else" true) true).1 = 1
    ∧ PO_if cond true true after_block_input.eos true
        = ((if cond = 0 then [block_event.skipped] else [block_event.parsed]),
           some eos_kind.ensure_eos)
    ∧ error_count (PO_if cond true true after_block_input.eos true).1 = 0 := by
  by_cases h : cond = 0
  · subst h
    refine ⟨fun hc => absurd rfl hc, fun _ => ?_, ?_, ?_, ?_⟩ <;> rfl
  · have hd : decide (cond ≠ 0) = true := by simp [h]
    refine ⟨fun _ => ?_, fun hc => absurd hc h, ?_, ?_, ?_⟩ <;>
      simp [PO_if, parse_block_else_block, skip_or_parse_block, hd, h,
        parsed_count, error_count]

/-- Witness for C5 at conditions 1 and 0. -/
theorem C5_witness :
    PO_if 1 true true (after_block_input.keyword "else" true) true
      = ([block_event.parsed, block_event.skipped, block_event.ensured_eos],
         some eos_kind.ensure_eos)
    ∧ PO_if 0 true true (after_block_input.keyword "else" true) true
      = ([block_event.skipped, block_event.parsed, block_event.ensured_eos],
         some eos_kind.ensure_eos) :=
  ⟨(C5_if 1).1 (by norm_num), (C5_if 0).2.1 rfl⟩

/-- C6: an !ifdef or !ifndef directive not followed by an opening brace
parses no block and returns PARSE_REMAINDER exactly when the defined
boolean (symbol found and carrying the defined flag, inverted for
!ifndef) is true, and SKIP_REMAINDER when it is false. -/
theorem C6_ifdef_no_block (invert node_found flag_defined first_term : Bool)
    (after : after_block_input) (second_term : Bool) :
    ifdef_ifndef invert true node_found flag_defined false first_term
        after second_term
      = ([], some (if Bool.xor invert (node_found && flag_defined)
          then eos_kind.parse_remainder else eos_kind.skip_remainder)) := by
  cases invert <;> cases node_found <;> cases flag_defined <;> rfl

/-- C8 counterexample: PO_for restores the outer input frame but does
not restore the caller's last-consumed byte.  Concretely, with the
caller's GotByte being the closing brace (byte 125) at the switch and
the outer input's following byte being 10, the frame after PO_for is
the outer frame, yet GotByte is 10, not the caller's 125 — refuting the
claim that every loop construct restores the caller's last-consumed
byte. -/
theorem C8_counterexample :
    (PO_for_frames ⟨⟨4, false⟩, 125⟩ (fun p => p) 10).1.input_now
        = (⟨4, false⟩ : input_frame)
    ∧ (PO_for_frames ⟨⟨4, false⟩, 125⟩ (fun p => p) 10).1.got_byte
        ≠ (⟨⟨4, false⟩, 125⟩ : parser_state).got_byte :=
  ⟨rfl, by decide⟩

/-- C8 amended: after the PO_do frame protocol completes, the outer
input frame is active again and GotByte is the end-of-statement
sentinel it is known to have been, whatever the loop execution did to
the active state; after the PO_for frame protocol completes, the outer
input frame is active again and GotByte is the fresh byte fetched from
that restored input (the lost byte is known to have been the block
terminator), with ENSURE_EOS returned, so subsequent parsing proceeds
as after an atomic statement; after a successful PO_source, the outer
frame and the caller's saved last byte are both restored and the
recursion budget is back to its initial value. -/
theorem C8_frame_restore :
    (∀ (st : parser_state) (inner : parser_state → parser_state),
        PO_do_frames st inner
          = (⟨st.input_now, CHAR_EOS⟩, eos_kind.at_eos_anyway))
    ∧ (∀ (st : parser_state) (inner : parser_state → parser_state)
          (next_byte : Int),
        PO_for_frames st inner next_byte
          = (⟨st.input_now, next_byte⟩, eos_kind.ensure_eos))
    ∧ (∀ (st : source_state) (inner : parser_state → parser_state),
        1 ≤ st.source_recursions_left →
        PO_source st true true inner
          = source_outcome.done st eos_kind.ensure_eos none) := by
  refine ⟨fun st inner => rfl, fun st inner next_byte => rfl, ?_⟩
  intro st inner h
  obtain ⟨⟨fr, gb⟩, c⟩ := st
  simp only [PO_source]
  rw [if_neg (by simp at h ⊢; omega)]
  norm_num

/-- Witness for C8 on a concrete state with budget 5 and the identity
as the nested parse. -/
theorem C8_witness :
    PO_source ⟨⟨⟨3, false⟩, 42⟩, 5⟩ true true (fun p => p)
      = source_outcome.done ⟨⟨⟨3, false⟩, 42⟩, 5⟩ eos_kind.ensure_eos none :=
  C8_frame_restore.2.2 ⟨⟨⟨3, false⟩, 42⟩, 5⟩ (fun p => p) (by norm_num)

/-- C10: when the filename read fails (and the depth check passed), the
handler returns SKIP_REMAINDER with the recursion budget left
decremented; the budget is restored on the cannot-open path (which
raises the recoverable cannot-open error and returns ENSURE_EOS) and on
the successful-parse path. -/
theorem C10_source_counter (st : source_state)
    (inner : parser_state → parser_state)
    (h : 1 ≤ st.source_recursions_left) :
    (∀ open_ok : Bool, PO_source st false open_ok inner
        = source_outcome.done
            { st with source_recursions_left := st.source_recursions_left - 1 }
            eos_kind.skip_remainder none)
    ∧ PO_source st true false inner
        = source_outcome.done st eos_kind.ensure_eos
            (some exception_cannot_open_input_file)
    ∧ outcome_recursions (PO_source st true true inner)
        = some st.source_recursions_left := by
  obtain ⟨⟨fr, gb⟩, c⟩ := st
  simp only at h
  refine ⟨fun open_ok => ?_, ?_, ?_⟩
  · simp only [PO_source]
    rw [if_neg (by omega)]
    norm_num
  · simp only [PO_source]
    rw [if_neg (by omega)]
    norm_num
  · simp only [PO_source, outcome_recursions]
    rw [if_neg (by omega)]
    norm_num

/-- Witness for C10 on a concrete state with budget 4. -/
theorem C10_witness :
    PO_source ⟨⟨⟨7, true⟩, 9⟩, 4⟩ false true (fun p => p)
      = source_outcome.done ⟨⟨⟨7, true⟩, 9⟩, 3⟩ eos_kind.skip_remainder none
    ∧ PO_source ⟨⟨⟨7, true⟩, 9⟩, 4⟩ true false (fun p => p)
      = source_outcome.done ⟨⟨⟨7, true⟩, 9⟩, 4⟩ eos_kind.ensure_eos
          (some exception_cannot_open_input_file)
    ∧ outcome_recursions (PO_source ⟨⟨⟨7, true⟩, 9⟩, 4⟩ true true (fun p => p))
      = some 4 :=
  (C10_source_counter ⟨⟨⟨7, true⟩, 9⟩, 4⟩ (fun p => p) (by norm_num)).imp
    (fun h1 => h1 true) id
